import Mathlib

/-!
Shallow embedding of the detection engine of `read0130.py`.

The repository's core consists of two pure functions over a cropped BGR
pixel buffer, `detect_corner_markers` and `detect_bubbles`.  Both call
OpenCV primitives (`cvtColor`, `GaussianBlur`, `adaptiveThreshold`,
`morphologyEx`, `findContours`, `contourArea`, `arcLength`,
`minEnclosingCircle`, `approxPolyDP`); those primitives are external
library code, so they are modelled as an abstract oracle bundle `CV`
over abstract types for grayscale buffers, contours and kernels, and
every theorem quantifies over the oracle.  The repository's own logic -
the guards, the geometric filters, the candidate records, the
left/right partition and the per-column sort - is translated line by
line from the source.

Numeric conventions: Python floats are modelled as exact rationals;
`np.pi` is the exact value of the IEEE-754 double that numpy exposes;
Python `int(...)` truncates toward zero.
-/

namespace Read0130

/-- `np.pi` as the exact rational value of the IEEE-754 double
`3.141592653589793115997963...`, i.e. `884279719003555 / 2^48`. -/
def npPi : ℚ := 884279719003555 / 281474976710656

/-- Python `int(q)` on a float: truncation toward zero. -/
def pyInt (q : ℚ) : ℤ := if 0 ≤ q then ⌊q⌋ else ⌈q⌉

/-- A cropped BGR region (`img_crop_bgr`): a rectangular 3-channel pixel
buffer.  `data` is the flattened pixel content, kept so the frame
property (the engine never writes to the caller's buffer) can be stated. -/
structure Image where
  height : ℕ
  width : ℕ
  data : List ℕ
deriving Repr, DecidableEq

/-- numpy's `.size` of a 3-channel `height × width × 3` array. -/
def Image.size (img : Image) : ℕ := 3 * img.height * img.width

/-- The OpenCV primitives used by the source, as an abstract oracle over
abstract types `Gray` (single-channel buffers), `Cnt` (contours) and
`Kernel` (structuring elements).  The arguments retained are the ones
the source varies: `adaptiveThreshold` keeps `(src, maxValue, blockSize, C)`
(the method/threshold-type flags are the same constants at both call
sites), `gaussianBlur` keeps the kernel size and sigma, `arcLength` the
closed flag, `approxPolyDP` the tolerance and closed flag. -/
structure CV (Gray Cnt Kernel : Type) where
  cvtColor : Image → Gray
  gaussianBlur : Gray → ℕ × ℕ → ℚ → Gray
  adaptiveThreshold : Gray → ℚ → ℕ → ℚ → Gray
  getStructuringElement : ℕ × ℕ → Kernel
  morphologyEx : Gray → Kernel → Gray
  findContours : Gray → List Cnt
  contourArea : Cnt → ℚ
  arcLength : Cnt → Bool → ℚ
  minEnclosingCircle : Cnt → (ℚ × ℚ) × ℚ
  approxPolyDP : Cnt → ℚ → Bool → List (ℤ × ℤ)

/-- One record of `detected_circles`: `[int(x), int(y), int(radius)]`. -/
structure Bub where
  x : ℤ
  y : ℤ
  r : ℤ
deriving Repr, DecidableEq

variable {Gray Cnt Kernel : Type}

/-! ## `detect_corner_markers` (source lines 11-27) -/

/-- The binary mask of `detect_corner_markers`:
`adaptiveThreshold(cvtColor(img), 255, ..., 21, 2)`. -/
def markerThresh (cv : CV Gray Cnt Kernel) (img : Image) : Gray :=
  cv.adaptiveThreshold (cv.cvtColor img) 255 21 2

/-- The external contours found by `detect_corner_markers`. -/
def markerContours (cv : CV Gray Cnt Kernel) (img : Image) : List Cnt :=
  cv.findContours (markerThresh cv img)

/-- The loop body of `detect_corner_markers`: skip contours with area
below 100, approximate the polygon at tolerance `0.04 * peri`, keep
exactly the 4-vertex approximations as 4-point records. -/
def keepSquare (cv : CV Gray Cnt Kernel) (cnt : Cnt) : Option (List (ℤ × ℤ)) :=
  let area := cv.contourArea cnt
  if area < 100 then none
  else
    let peri := cv.arcLength cnt true
    let approx := cv.approxPolyDP cnt (0.04 * peri) true
    if approx.length = 4 then some approx else none

/-- `detect_corner_markers(img_crop_bgr)`: empty on a zero-size buffer,
otherwise the accepted 4-point records in contour-discovery order. -/
def detect_corner_markers (cv : CV Gray Cnt Kernel) (img : Image) :
    List (List (ℤ × ℤ)) :=
  if img.size = 0 then []
  else (markerContours cv img).filterMap (keepSquare cv)

/-! ## `detect_bubbles` (source lines 29-77) -/

/-- Steps 1-3 of `detect_bubbles`: grayscale, 5×5 Gaussian blur,
adaptive threshold (block 31, bias 5), then a morphological close with
a 3×3 elliptical structuring element. -/
def bubbleThresh (cv : CV Gray Cnt Kernel) (img : Image) : Gray :=
  let gray := cv.cvtColor img
  let blurred := cv.gaussianBlur gray (5, 5) 0
  let thresh := cv.adaptiveThreshold blurred 255 31 5
  let kernel := cv.getStructuringElement (3, 3)
  cv.morphologyEx thresh kernel

/-- Step 4 of `detect_bubbles`: the external contours of the mask. -/
def bubbleContours (cv : CV Gray Cnt Kernel) (img : Image) : List Cnt :=
  cv.findContours (bubbleThresh cv img)

/-- `circularity = 4 * np.pi * area / (peri * peri)` for a contour. -/
def circularity (cv : CV Gray Cnt Kernel) (cnt : Cnt) : ℚ :=
  4 * npPi * cv.contourArea cnt /
    (cv.arcLength cnt true * cv.arcLength cnt true)

/-- The filter body of `detect_bubbles`: skip if `area < 40 or peri == 0`;
require `0.5 < circularity < 1.5`; require `7 < radius < 35` for the
minimal enclosing circle; emit `[int(x), int(y), int(radius)]`. -/
def keepCircle (cv : CV Gray Cnt Kernel) (cnt : Cnt) : Option Bub :=
  let area := cv.contourArea cnt
  let peri := cv.arcLength cnt true
  if area < 40 ∨ peri = 0 then none
  else
    if 0.5 < circularity cv cnt ∧ circularity cv cnt < 1.5 then
      let mec := cv.minEnclosingCircle cnt
      if 7 < mec.2 ∧ mec.2 < 35 then
        some ⟨pyInt mec.1.1, pyInt mec.1.2, pyInt mec.2⟩
      else none
    else none

/-- `detected_circles`: the accepted candidate records, in
contour-discovery order (the list the `for` loop appends to). -/
def detected_circles (cv : CV Gray Cnt Kernel) (img : Image) : List Bub :=
  (bubbleContours cv img).filterMap (keepCircle cv)

/-- `detected_circles` as seen through the whole function: empty on a
zero-size buffer (the body never runs), otherwise the loop's output. -/
def accepted_circles (cv : CV Gray Cnt Kernel) (img : Image) : List Bub :=
  if img.size = 0 then [] else detected_circles cv img

/-- The left-column predicate `c[0] < width / 2` (true Python division). -/
def inLeftCol (width : ℕ) (c : Bub) : Bool :=
  decide ((c.x : ℚ) < (width : ℚ) / 2)

/-- The right-column predicate `c[0] >= width / 2`. -/
def inRightCol (width : ℕ) (c : Bub) : Bool :=
  decide ((width : ℚ) / 2 ≤ (c.x : ℚ))

/-- Python's stable `list.sort(key=lambda c: c[1])`: sort by ascending y. -/
def sortByY (l : List Bub) : List Bub :=
  l.mergeSort (fun a b => decide (a.y ≤ b.y))

/-- `detect_bubbles(img_crop_bgr)`: empty on a zero-size buffer,
otherwise the accepted candidates split at `width / 2` into left and
right columns, each column sorted by ascending y, left then right. -/
def detect_bubbles (cv : CV Gray Cnt Kernel) (img : Image) : List Bub :=
  if img.size = 0 then []
  else
    let circles := detected_circles cv img
    let left_col := circles.filter (inLeftCol img.width)
    let right_col := circles.filter (inRightCol img.width)
    sortByY left_col ++ sortByY right_col

/-! ## Call-level wrappers

Each source function is a pure function of its input: its body only
reads the caller-supplied buffer (every OpenCV call allocates a fresh
output array; none writes into its source argument).  The wrappers
below expose the caller-visible pair (buffer after the call, returned
value) and the effect of calling a detector twice in a row, so the
purity and frame claims can be stated. -/

/-- Effect of two successive calls of the same function on the same
argument, as the caller observes them. -/
def runTwice {α β : Type} (f : α → β) (x : α) : β × β := (f x, f x)

/-- Result of a `detect_bubbles` call as the caller sees it: the state
of the input buffer after the call, and the returned list. -/
def detect_bubbles_call (cv : CV Gray Cnt Kernel) (img : Image) :
    Image × List Bub :=
  (img, detect_bubbles cv img)

/-- Result of a `detect_corner_markers` call as the caller sees it. -/
def detect_corner_markers_call (cv : CV Gray Cnt Kernel) (img : Image) :
    Image × List (List (ℤ × ℤ)) :=
  (img, detect_corner_markers cv img)

/-! ## Concrete oracle instances used by witnesses and counterexamples

Each instance fixes the abstract types to `Unit` (or `Bool` when two
distinct contours are needed) and returns fixed measurements for the
single contour the mask contains. -/

/-- A region whose mask contains one well-formed bubble contour:
area 300, perimeter 60 (circularity `npPi / 3 ≈ 1.047`), minimal
enclosing circle centered at `(5, 3)` with radius 10. -/
def cvUnit : CV Unit Unit Unit where
  cvtColor _ := ()
  gaussianBlur _ _ _ := ()
  adaptiveThreshold _ _ _ _ := ()
  getStructuringElement _ := ()
  morphologyEx _ _ := ()
  findContours _ := [()]
  contourArea _ := 300
  arcLength _ _ := 60
  minEnclosingCircle _ := ((5, 3), 10)
  approxPolyDP _ _ _ := [(0, 0), (4, 0), (4, 4), (0, 4)]

/-- A region whose mask contains one tiny contour of area 10, below the
noise floor. -/
def cvSmall : CV Unit Unit Unit where
  cvtColor _ := ()
  gaussianBlur _ _ _ := ()
  adaptiveThreshold _ _ _ _ := ()
  getStructuringElement _ := ()
  morphologyEx _ _ := ()
  findContours _ := [()]
  contourArea _ := 10
  arcLength _ _ := 12
  minEnclosingCircle _ := ((2, 2), 2)
  approxPolyDP _ _ _ := [(0, 0), (4, 0), (4, 4)]

/-- A region whose mask contains one geometrically perfect filled circle
of radius 38: area `npPi * 38 ^ 2`, perimeter `2 * npPi * 38` (so its
circularity is exactly 1), minimal enclosing circle `((50, 50), 38)`. -/
def cv38 : CV Unit Unit Unit where
  cvtColor _ := ()
  gaussianBlur _ _ _ := ()
  adaptiveThreshold _ _ _ _ := ()
  getStructuringElement _ := ()
  morphologyEx _ _ := ()
  findContours _ := [()]
  contourArea _ := npPi * 1444
  arcLength _ _ := 76 * npPi
  minEnclosingCircle _ := ((50, 50), 38)
  approxPolyDP _ _ _ := []

/-- The image on which `cv38` is read: 200 px wide, 100 px tall. -/
def img38 : Image := ⟨100, 200, []⟩

/-- A region whose mask contains one well-formed bubble contour whose
minimal enclosing circle has the fractional radius `10.9`. -/
def cvFrac : CV Unit Unit Unit where
  cvtColor _ := ()
  gaussianBlur _ _ _ := ()
  adaptiveThreshold _ _ _ _ := ()
  getStructuringElement _ := ()
  morphologyEx _ _ := ()
  findContours _ := [()]
  contourArea _ := 300
  arcLength _ _ := 60
  minEnclosingCircle _ := ((5, 3), 109 / 10)
  approxPolyDP _ _ _ := []

/-- A marker region whose mask contains two contours: `false`, a small
blob of area 50, and `true`, a square of area 200 whose polygon
approximation has 4 vertices. -/
def cvTwo : CV Unit Bool Unit where
  cvtColor _ := ()
  gaussianBlur _ _ _ := ()
  adaptiveThreshold _ _ _ _ := ()
  getStructuringElement _ := ()
  morphologyEx _ _ := ()
  findContours _ := [false, true]
  contourArea cnt := if cnt then 200 else 50
  arcLength _ _ := 60
  minEnclosingCircle _ := ((10, 10), 8)
  approxPolyDP cnt _ _ :=
    if cnt then [(0, 0), (14, 0), (14, 14), (0, 14)] else [(0, 0)]

/-! ## Helper lemmas -/

/-- Sorting a column does not change its members: it is a permutation. -/
theorem sortByY_perm (l : List Bub) : (sortByY l).Perm l :=
  List.mergeSort_perm l _

/-- Sorting a column yields a sequence non-decreasing in y. -/
theorem sortByY_sorted (l : List Bub) :
    List.Sorted (fun a b : Bub => a.y ≤ b.y) (sortByY l) := by
  have h : (sortByY l).Pairwise
      (fun a b : Bub => (decide (a.y ≤ b.y)) = true) := by
    apply List.sorted_mergeSort
    · intro a b c hab hbc
      simp only [decide_eq_true_eq] at *
      exact le_trans hab hbc
    · intro a b
      simp only [Bool.or_eq_true, decide_eq_true_eq]
      exact le_total a.y b.y
  exact h.imp fun hab => of_decide_eq_true hab

/-- The right-column test is the boolean negation of the left-column
test: `c[0] >= width / 2` holds exactly when `c[0] < width / 2` fails. -/
theorem inRightCol_eq_not_left (w : ℕ) (c : Bub) :
    inRightCol w c = !(inLeftCol w c) := by
  simp only [inRightCol, inLeftCol, ← decide_not]
  exact decide_eq_decide.mpr not_lt.symm

/-- The left and right columns together are a permutation of the
candidate list. -/
theorem filter_left_right_perm (w : ℕ) (l : List Bub) :
    (l.filter (inLeftCol w) ++ l.filter (inRightCol w)).Perm l := by
  have h : l.filter (inRightCol w) = l.filter (fun c => !(inLeftCol w c)) :=
    List.filter_congr (fun c _ => inRightCol_eq_not_left w c)
  rw [h]
  exact List.filter_append_perm _ l

/-- The bubble filter body as a single conditional. -/
theorem keepCircle_eq_ite (cv : CV Gray Cnt Kernel) (cnt : Cnt) :
    keepCircle cv cnt =
      if (¬(cv.contourArea cnt < 40 ∨ cv.arcLength cnt true = 0)) ∧
          (0.5 < circularity cv cnt ∧ circularity cv cnt < 1.5) ∧
          (7 < (cv.minEnclosingCircle cnt).2 ∧ (cv.minEnclosingCircle cnt).2 < 35)
      then some ⟨pyInt (cv.minEnclosingCircle cnt).1.1,
                 pyInt (cv.minEnclosingCircle cnt).1.2,
                 pyInt (cv.minEnclosingCircle cnt).2⟩
      else none := by
  unfold keepCircle
  by_cases h1 : cv.contourArea cnt < 40 ∨ cv.arcLength cnt true = 0
  · simp [h1]
  · by_cases h2 : 0.5 < circularity cv cnt ∧ circularity cv cnt < 1.5
    · by_cases h3 : 7 < (cv.minEnclosingCircle cnt).2 ∧
          (cv.minEnclosingCircle cnt).2 < 35
      · simp [h1, h2, h3]
      · simp [h1, h2, h3]
    · simp [h1, h2]

/-- The marker filter body as a single conditional. -/
theorem keepSquare_eq_ite (cv : CV Gray Cnt Kernel) (cnt : Cnt) :
    keepSquare cv cnt =
      if 100 ≤ cv.contourArea cnt ∧
          (cv.approxPolyDP cnt (0.04 * cv.arcLength cnt true) true).length = 4
      then some (cv.approxPolyDP cnt (0.04 * cv.arcLength cnt true) true)
      else none := by
  unfold keepSquare
  by_cases h1 : cv.contourArea cnt < 100
  · simp [h1, not_le.mpr h1]
  · by_cases h2 : (cv.approxPolyDP cnt (0.04 * cv.arcLength cnt true) true).length = 4
    · simp [h1, not_lt.mp h1, h2]
    · simp [h1, not_lt.mp h1, h2]

/-- A filterMap whose body is a guarded `some` is a filter then a map. -/
theorem filterMap_guarded {α β : Type} (p : α → Prop) [DecidablePred p]
    (g : α → β) (l : List α) :
    l.filterMap (fun a => if p a then some (g a) else none) =
      (l.filter (fun a => decide (p a))).map g := by
  induction l with
  | nil => rfl
  | cons a t ih =>
    by_cases h : p a <;>
      simp [List.filterMap_cons, List.filter_cons, h, ih]

/-- Floor of the fractional radius `10.9`. -/
theorem floor_109_10 : ⌊(109 / 10 : ℚ)⌋ = 10 := by
  rw [Int.floor_eq_iff]
  norm_num

/-- Rounding the fractional radius `10.9` yields 11. -/
theorem round_109_10 : round (109 / 10 : ℚ) = 11 := by
  rw [round_eq, show (109 / 10 + 1 / 2 : ℚ) = 114 / 10 by norm_num,
    Int.floor_eq_iff]
  norm_num

/-- The `cvUnit` contour passes every filter of the bubble loop. -/
theorem cvUnit_cond :
    (¬(cvUnit.contourArea () < 40 ∨ cvUnit.arcLength () true = 0)) ∧
    (0.5 < circularity cvUnit () ∧ circularity cvUnit () < 1.5) ∧
    (7 < (cvUnit.minEnclosingCircle ()).2 ∧
      (cvUnit.minEnclosingCircle ()).2 < 35) := by
  refine ⟨?_, ⟨?_, ?_⟩, ?_, ?_⟩ <;>
    norm_num [cvUnit, circularity, npPi]

/-- The `cvUnit` contour produces the record `(5, 3, 10)`. -/
theorem keepCircle_cvUnit : keepCircle cvUnit () = some (Bub.mk 5 3 10) := by
  rw [keepCircle_eq_ite, if_pos cvUnit_cond]
  show some (Bub.mk (pyInt 5) (pyInt 3) (pyInt 10)) = some (Bub.mk 5 3 10)
  norm_num [pyInt]

/-- The `cvFrac` contour passes every filter of the bubble loop. -/
theorem cvFrac_cond :
    (¬(cvFrac.contourArea () < 40 ∨ cvFrac.arcLength () true = 0)) ∧
    (0.5 < circularity cvFrac () ∧ circularity cvFrac () < 1.5) ∧
    (7 < (cvFrac.minEnclosingCircle ()).2 ∧
      (cvFrac.minEnclosingCircle ()).2 < 35) := by
  refine ⟨?_, ⟨?_, ?_⟩, ?_, ?_⟩ <;>
    norm_num [cvFrac, circularity, npPi]

/-- The `cvFrac` contour, of enclosing radius `10.9`, produces the
record `(5, 3, 10)`. -/
theorem keepCircle_cvFrac : keepCircle cvFrac () = some (Bub.mk 5 3 10) := by
  rw [keepCircle_eq_ite, if_pos cvFrac_cond]
  show some (Bub.mk (pyInt 5) (pyInt 3) (pyInt (109 / 10))) = some (Bub.mk 5 3 10)
  have h3 : pyInt (109 / 10) = 10 := by
    unfold pyInt
    rw [if_pos (by norm_num : (0 : ℚ) ≤ 109 / 10), floor_109_10]
  rw [h3]
  norm_num [pyInt]

/-! ## Claim theorems -/

/-- C1: for every input region, `detect_bubbles` returns the accepted
bubble candidates partitioned by x-coordinate relative to the
horizontal midpoint `width / 2`: first every candidate left of the
midpoint sorted by ascending y, then every candidate at or right of the
midpoint sorted by ascending y; each half of the returned sequence is
non-decreasing in y. -/
theorem detect_bubbles_partition_sorted (cv : CV Gray Cnt Kernel) (img : Image) :
    ∃ L R : List Bub,
      detect_bubbles cv img = L ++ R ∧
      L.Perm ((accepted_circles cv img).filter (inLeftCol img.width)) ∧
      R.Perm ((accepted_circles cv img).filter (inRightCol img.width)) ∧
      List.Sorted (fun a b : Bub => a.y ≤ b.y) L ∧
      List.Sorted (fun a b : Bub => a.y ≤ b.y) R := by
  by_cases h : img.size = 0
  · refine ⟨[], [], by simp [detect_bubbles, h], ?_, ?_, List.sorted_nil, List.sorted_nil⟩
    · simp [accepted_circles, h]
    · simp [accepted_circles, h]
  · refine ⟨sortByY ((detected_circles cv img).filter (inLeftCol img.width)),
      sortByY ((detected_circles cv img).filter (inRightCol img.width)),
      ?_, ?_, ?_, sortByY_sorted _, sortByY_sorted _⟩
    · simp [detect_bubbles, h]
    · simpa [accepted_circles, h] using sortByY_perm _
    · simpa [accepted_circles, h] using sortByY_perm _

/-- C9: the left/right partition is disjoint and exhaustive - the
returned sequence is a permutation of the accepted candidate list, so
every accepted candidate appears exactly once (equal multiplicity for
every record) and the length equals the number of accepted
candidates. -/
theorem detect_bubbles_exhaustive (cv : CV Gray Cnt Kernel) (img : Image) :
    (detect_bubbles cv img).Perm (accepted_circles cv img) ∧
    (detect_bubbles cv img).length = (accepted_circles cv img).length ∧
    (∀ b : Bub, (detect_bubbles cv img).count b = (accepted_circles cv img).count b) := by
  have hperm : (detect_bubbles cv img).Perm (accepted_circles cv img) := by
    by_cases h : img.size = 0
    · simp [detect_bubbles, accepted_circles, h]
    · simp only [detect_bubbles, accepted_circles, if_neg h]
      exact ((sortByY_perm _).append (sortByY_perm _)).trans
        (filter_left_right_perm _ _)
  exact ⟨hperm, hperm.length_eq, fun b => hperm.count_eq b⟩

/-- C4: on a zero-area buffer both detectors return the empty sequence
(and, being total functions, raise no error). -/
theorem empty_buffer_empty_result (cv : CV Gray Cnt Kernel) (img : Image)
    (h : img.height * img.width = 0) :
    detect_bubbles cv img = [] ∧ detect_corner_markers cv img = [] := by
  have hs : img.size = 0 := by unfold Image.size; rw [Nat.mul_assoc, h]
  constructor
  · simp [detect_bubbles, hs]
  · simp [detect_corner_markers, hs]

/-- Witness for C4: a 0 × 7 buffer yields empty results from both
detectors. -/
theorem empty_buffer_empty_result_witness :
    detect_bubbles cvUnit (Image.mk 0 7 []) = [] ∧
    detect_corner_markers cvUnit (Image.mk 0 7 []) = [] :=
  empty_buffer_empty_result cvUnit (Image.mk 0 7 []) (by decide)

/-- C7: both detectors are deterministic pure functions of their input:
two successive calls on the identical buffer yield identical outputs.
In this embedding purity is by construction - the source functions read
no state other than their argument, so they denote plain functions. -/
theorem detectors_deterministic (cv : CV Gray Cnt Kernel) (img : Image) :
    (runTwice (detect_bubbles cv) img).1 = (runTwice (detect_bubbles cv) img).2 ∧
    (runTwice (detect_corner_markers cv) img).1 =
      (runTwice (detect_corner_markers cv) img).2 :=
  ⟨rfl, rfl⟩

/-- C8: neither detector mutates the caller-supplied buffer: after the
call the buffer the caller holds is the one it passed in, every pixel
included.  In the source the input array is only ever read (each OpenCV
call allocates its output), which the embedding reflects by threading
the buffer unchanged to the call result. -/
theorem detectors_preserve_input (cv : CV Gray Cnt Kernel) (img : Image) :
    (detect_bubbles_call cv img).1 = img ∧
    (detect_corner_markers_call cv img).1 = img ∧
    (∀ i : ℕ, ((detect_bubbles_call cv img).1.data.get? i) = img.data.get? i) ∧
    (∀ i : ℕ, ((detect_corner_markers_call cv img).1.data.get? i) = img.data.get? i) :=
  ⟨rfl, rfl, fun _ => rfl, fun _ => rfl⟩

/-- C2 counterexample: the accepted radius range is `7 < radius < 35`,
not 7 to 40.  A geometrically perfect filled circle of radius 38 -
circularity exactly 1, area far above the noise floor, radius within
`[7, 40]` - is the only contour of its region, yet `detect_bubbles`
returns no record for it. -/
theorem radius_between_7_and_40_missed :
    (7 : ℚ) < (cv38.minEnclosingCircle ()).2 ∧
    (cv38.minEnclosingCircle ()).2 < 40 ∧
    circularity cv38 () = 1 ∧
    (40 : ℚ) ≤ cv38.contourArea () ∧
    cv38.arcLength () true ≠ 0 ∧
    bubbleContours cv38 img38 = [()] ∧
    detect_bubbles cv38 img38 = [] := by
  have hmec : (cv38.minEnclosingCircle ()).2 = 38 := rfl
  have hcirc : circularity cv38 () = 1 := by
    unfold circularity
    show 4 * npPi * (npPi * 1444) / (76 * npPi * (76 * npPi)) = 1
    norm_num [npPi]
  have hk : keepCircle cv38 () = none := by
    rw [keepCircle_eq_ite, if_neg]
    rintro ⟨-, -, -, h35⟩
    rw [hmec] at h35
    norm_num at h35
  have hdc : detected_circles cv38 img38 = [] := by
    show List.filterMap (keepCircle cv38) [()] = []
    simp [hk]
  refine ⟨by rw [hmec]; norm_num, by rw [hmec]; norm_num, hcirc, ?_, ?_, rfl, ?_⟩
  · show (40 : ℚ) ≤ npPi * 1444
    norm_num [npPi]
  · show (76 : ℚ) * npPi ≠ 0
    norm_num [npPi]
  · unfold detect_bubbles
    rw [if_neg (by decide : ¬ img38.size = 0)]
    simp [hdc, sortByY]

/-- C2 amended: a contour is accepted as a bubble candidate exactly when
its area is at least 40, its perimeter is nonzero, its circularity lies
strictly between 0.5 and 1.5, and its minimal enclosing circle radius
lies strictly between 7 and 35 (not 40). -/
theorem keepCircle_accepts_iff (cv : CV Gray Cnt Kernel) (cnt : Cnt) :
    (keepCircle cv cnt).isSome = true ↔
      ((40 : ℚ) ≤ cv.contourArea cnt ∧ cv.arcLength cnt true ≠ 0 ∧
       0.5 < circularity cv cnt ∧ circularity cv cnt < 1.5 ∧
       7 < (cv.minEnclosingCircle cnt).2 ∧ (cv.minEnclosingCircle cnt).2 < 35) := by
  rw [keepCircle_eq_ite]
  split_ifs with h
  · simp only [Option.isSome_some, true_iff]
    obtain ⟨h1, h2, h3⟩ := h
    push_neg at h1
    exact ⟨h1.1, h1.2, h2.1, h2.2, h3.1, h3.2⟩
  · simp only [Option.isSome_none, Bool.false_eq_true, false_iff]
    rintro ⟨a1, a2, a3, a4, a5, a6⟩
    exact h ⟨by push_neg; exact ⟨a1, a2⟩, ⟨a3, a4⟩, ⟨a5, a6⟩⟩

/-- C3: a contour with zero perimeter or area below the noise floor of
40 px² is discarded, and an accepted contour has nonzero perimeter,
area at least 40, and circularity `4·π·area / perimeter²` strictly
between 0.5 and 1.5 - in particular within the band 0.4 to 1.6 the
spec quotes.  (The source performs no bounding-box aspect-ratio check,
so the conditional aspect clause of the claim is vacuous.) -/
theorem bubble_filter_thresholds (cv : CV Gray Cnt Kernel) (cnt : Cnt) :
    ((cv.contourArea cnt < 40 ∨ cv.arcLength cnt true = 0) →
      keepCircle cv cnt = none) ∧
    (∀ b : Bub, keepCircle cv cnt = some b →
      cv.arcLength cnt true ≠ 0 ∧ (40 : ℚ) ≤ cv.contourArea cnt ∧
      0.5 < circularity cv cnt ∧ circularity cv cnt < 1.5 ∧
      0.4 < circularity cv cnt ∧ circularity cv cnt < 1.6) := by
  constructor
  · intro h
    unfold keepCircle
    simp [h]
  · intro b hb
    rw [keepCircle_eq_ite] at hb
    split_ifs at hb with h
    obtain ⟨h1, h2, _⟩ := h
    push_neg at h1
    exact ⟨h1.2, h1.1, h2.1, h2.2,
      lt_trans (by norm_num) h2.1, lt_trans h2.2 (by norm_num)⟩

/-- Witness for C3: the area-10 blob of `cvSmall` is discarded, and the
accepted contour of `cvUnit` has circularity inside the claimed band. -/
theorem bubble_filter_thresholds_witness :
    keepCircle cvSmall () = none ∧
    ((0.4 : ℚ) < circularity cvUnit () ∧ circularity cvUnit () < 1.6) :=
  ⟨(bubble_filter_thresholds cvSmall ()).1
      (Or.inl (show cvSmall.contourArea () < 40 by norm_num [cvSmall])),
   ⟨((bubble_filter_thresholds cvUnit ()).2 (Bub.mk 5 3 10)
        keepCircle_cvUnit).2.2.2.2.1,
    ((bubble_filter_thresholds cvUnit ()).2 (Bub.mk 5 3 10)
        keepCircle_cvUnit).2.2.2.2.2⟩⟩

/-- C5: `detect_corner_markers` on a non-degenerate buffer returns
exactly the contours of area at least 100 whose polygon approximation
at tolerance `0.04 · perimeter` has exactly 4 vertices, each as its
4-point approximation, in contour-discovery order (a filter of the
discovered list followed by a map, with no reordering or
deduplication); contours of area below 100 are discarded. -/
theorem corner_markers_spec (cv : CV Gray Cnt Kernel) (img : Image)
    (h : img.size ≠ 0) :
    detect_corner_markers cv img =
      ((markerContours cv img).filter
        (fun cnt => decide ((100 : ℚ) ≤ cv.contourArea cnt ∧
          (cv.approxPolyDP cnt (0.04 * cv.arcLength cnt true) true).length = 4))).map
        (fun cnt => cv.approxPolyDP cnt (0.04 * cv.arcLength cnt true) true) ∧
    (∀ m ∈ detect_corner_markers cv img, m.length = 4) ∧
    (∀ cnt : Cnt, cv.contourArea cnt < 100 → keepSquare cv cnt = none) := by
  have heq : detect_corner_markers cv img =
      ((markerContours cv img).filter
        (fun cnt => decide ((100 : ℚ) ≤ cv.contourArea cnt ∧
          (cv.approxPolyDP cnt (0.04 * cv.arcLength cnt true) true).length = 4))).map
        (fun cnt => cv.approxPolyDP cnt (0.04 * cv.arcLength cnt true) true) := by
    unfold detect_corner_markers
    rw [if_neg h, funext (keepSquare_eq_ite cv)]
    exact filterMap_guarded _ _ _
  refine ⟨heq, ?_, ?_⟩
  · intro m hm
    rw [heq] at hm
    obtain ⟨cnt, hcnt, rfl⟩ := List.mem_map.mp hm
    exact (of_decide_eq_true (List.mem_filter.mp hcnt).2).2
  · intro cnt hlt
    rw [keepSquare_eq_ite, if_neg (fun hc => absurd hlt (not_lt.mpr hc.1))]

/-- Witness for C5: on `cvTwo` only the 4-vertex square of area 200 is
returned (as its 4 points), the area-50 blob is discarded. -/
theorem corner_markers_spec_witness :
    Image.size (Image.mk 2 2 []) ≠ 0 ∧
    detect_corner_markers cvTwo (Image.mk 2 2 []) =
      [[(0, 0), (14, 0), (14, 14), (0, 14)]] ∧
    keepSquare cvTwo false = none := by
  have h := corner_markers_spec cvTwo (Image.mk 2 2 []) (by decide)
  refine ⟨by decide, ?_, h.2.2 false (by decide)⟩
  rw [h.1]
  decide

/-- C6 counterexample: the radius field truncates, it does not round.
The accepted contour of `cvFrac` has minimal enclosing circle radius
10.9; its record carries radius 10 while the rounded radius is 11. -/
theorem radius_field_not_rounded :
    keepCircle cvFrac () = some (Bub.mk 5 3 10) ∧
    (cvFrac.minEnclosingCircle ()).2 = 109 / 10 ∧
    round ((cvFrac.minEnclosingCircle ()).2) = (11 : ℤ) ∧
    (Bub.mk 5 3 10).r ≠ round ((cvFrac.minEnclosingCircle ()).2) := by
  have hm : (cvFrac.minEnclosingCircle ()).2 = 109 / 10 := rfl
  refine ⟨keepCircle_cvFrac, hm, ?_, ?_⟩
  · rw [hm, round_109_10]
  · rw [hm, round_109_10]
    decide

/-- C6 amended: the radius field of every returned record is the
truncation toward zero (Python `int(...)`) of the minimal enclosing
circle radius - the floor, since that radius is nonnegative. -/
theorem bubble_radius_truncated (cv : CV Gray Cnt Kernel) (cnt : Cnt)
    (b : Bub) (h : keepCircle cv cnt = some b) :
    b.r = pyInt (cv.minEnclosingCircle cnt).2 ∧
    (0 ≤ (cv.minEnclosingCircle cnt).2 →
      b.r = ⌊(cv.minEnclosingCircle cnt).2⌋) := by
  rw [keepCircle_eq_ite] at h
  split_ifs at h with hc
  injection h with h
  subst h
  refine ⟨rfl, fun h0 => ?_⟩
  simp only [pyInt, if_pos h0]

/-- Witness for C6 (amended): the record of the `cvUnit` contour
carries the truncated radius. -/
theorem bubble_radius_truncated_witness :
    (Bub.mk 5 3 10).r = pyInt ((cvUnit.minEnclosingCircle ()).2) ∧
    (0 ≤ ((cvUnit.minEnclosingCircle ()).2) →
      (Bub.mk 5 3 10).r = ⌊((cvUnit.minEnclosingCircle ()).2)⌋) :=
  bubble_radius_truncated cvUnit () (Bub.mk 5 3 10) keepCircle_cvUnit

/-- C10: a bubble whose integer center x equals exactly half the region
width fails the strict left-column test `c[0] < width / 2`, passes the
right-column test `c[0] >= width / 2`, and therefore lands in the
right-column portion of the returned sequence. -/
theorem midline_bubble_right (cv : CV Gray Cnt Kernel) (img : Image)
    (b : Bub) (hx : (b.x : ℚ) = (img.width : ℚ) / 2) :
    inLeftCol img.width b = false ∧
    inRightCol img.width b = true ∧
    b ∉ (accepted_circles cv img).filter (inLeftCol img.width) ∧
    (b ∈ accepted_circles cv img →
      b ∈ sortByY ((accepted_circles cv img).filter (inRightCol img.width))) ∧
    (img.size ≠ 0 →
      detect_bubbles cv img =
        sortByY ((accepted_circles cv img).filter (inLeftCol img.width)) ++
          sortByY ((accepted_circles cv img).filter (inRightCol img.width))) := by
  have hl : inLeftCol img.width b = false := by
    unfold inLeftCol
    rw [hx]
    exact decide_eq_false (lt_irrefl _)
  have hr : inRightCol img.width b = true := by
    unfold inRightCol
    rw [hx]
    exact decide_eq_true le_rfl
  refine ⟨hl, hr, ?_, ?_, ?_⟩
  · intro hmem
    have hb := (List.mem_filter.mp hmem).2
    rw [hl] at hb
    exact Bool.false_ne_true hb
  · intro hmem
    exact ((sortByY_perm _).mem_iff).mpr
      (List.mem_filter.mpr ⟨hmem, hr⟩)
  · intro hsz
    simp only [detect_bubbles, accepted_circles, if_neg hsz]

/-- Witness for C10: on a region of width 10, the accepted bubble with
center x = 5 = 10 / 2 is assigned to the right column. -/
theorem midline_bubble_right_witness :
    inLeftCol 10 (Bub.mk 5 3 10) = false ∧
    inRightCol 10 (Bub.mk 5 3 10) = true := by
  have h := midline_bubble_right cvUnit (Image.mk 20 10 [])
    (Bub.mk 5 3 10) (by norm_num)
  exact ⟨h.1, h.2.1⟩

end Read0130
